import Mathlib

/-!
# A verification model of `deepequalexplained.go`

The repository is a single Go file: a structural deep-equality checker built
on `reflect` that, instead of a boolean, returns `nil` (equal) or an error
string describing where and why the two values first diverge.

This file gives a shallow embedding of that program:

* `Ty` models `reflect.Type` as the checker observes it (Go type equality
  at line 32 and 179, `Type().Name()` in the two type-mismatch messages,
  and the `typ` component of the `visit` key).
* `Val` models a `reflect.Value` operand.  Only the four `hard` kinds
  (array, slice, map, struct) carry an addressability annotation
  (`Option Nat`), because `v.CanAddr()`/`v.UnsafeAddr()` are only consulted
  for those kinds (line 44).  Pointer targets and map storage are kept in an
  explicit memory `Mem` so that cyclic values are representable; slice
  backing storage is identified by the `Nat` tag paired with its elements
  (`v.Pointer()` at line 83).
* `deepValueEqual` is the recursive walker of lines 22-165, written with an
  explicit fuel argument standing for the call stack: `none` means the
  fuel ran out (the Go program would still be recursing at that depth),
  `some (visited, none)` means the call returned `nil` with the final state
  of the `visited` map, `some (visited, some e)` means it returned the
  error string `e`.  The `visited` map is threaded through the call tree
  exactly as the shared Go map is.  Go's randomized map iteration order
  (`v1.MapKeys()` at line 133) is an explicit oracle parameter
  `ord : List Val → List Val` applied to the first map's key list.
* `DeepEqualExplained` is the exported entry point of lines 167-187.

All message strings are transcribed verbatim from the `fmt.Errorf` calls.
-/

/-- Go types as the checker observes them.  Named struct and func types are
identified by name (Go named types are nominal); composite types are
structural, matching `reflect.Type` equality for the shapes the model can
build.  `tinvalid` is the type slot of the zero `reflect.Value`, which the
walker never inspects (line 23 returns first). -/
inductive Ty where
  | tinvalid : Ty
  | tbool : Ty
  | tint : Ty
  | tint64 : Ty
  | tfloat64 : Ty
  | tfloat32 : Ty
  | tstring : Ty
  | tarr (n : Nat) (elem : Ty) : Ty
  | tslice (elem : Ty) : Ty
  | tmap (key elem : Ty) : Ty
  | tstruct (name : String) : Ty
  | tptr (elem : Ty) : Ty
  | tiface : Ty
  | tfunc (sig : String) : Ty
deriving DecidableEq, Repr

/-- `reflect.Type.Name()`: the declared name for named types, `""` for
unnamed composite types (slice, map, array, pointer, func, interface
types are unnamed unless declared, and the model only builds unnamed
composites).  Used in the messages of lines 33 and 180. -/
def tyName : Ty → String
  | .tinvalid => ""
  | .tbool => "bool"
  | .tint => "int"
  | .tint64 => "int64"
  | .tfloat64 => "float64"
  | .tfloat32 => "float32"
  | .tstring => "string"
  | .tarr _ _ => ""
  | .tslice _ => ""
  | .tmap _ _ => ""
  | .tstruct n => n
  | .tptr _ => ""
  | .tiface => ""
  | .tfunc _ => ""

/-- A `reflect.Value` operand of the walker.

* `vinvalid` is the zero `reflect.Value` (`!v.IsValid()`), produced by
  `v.Elem()` on a nil pointer.
* Floats carry their `math.IsNaN` flag and, for non-NaN values, the `%v`
  rendering of the float (Go's shortest round-trip decimal, injective on
  non-NaN floats, so it is a faithful stand-in for the value itself: the
  leaf fallback of lines 151-162 observes a float only through `IsNaN`
  and `%v`).
* `varr`, `vslice`, `vmap`, `vstruct` carry `addr : Option Nat`:
  `some a` means `CanAddr()` with `UnsafeAddr() = a`, `none` means not
  addressable (the result of `reflect.ValueOf`, fields reached without
  passing a pointer, `MapIndex` results, interface `Elem`s).
* a slice is nil (`dat = none`) or a storage tag (`v.Pointer()`) plus its
  elements; a map is nil or a storage tag resolved through `Mem.maps`
  (indirection is needed because a map can contain itself); a pointer is
  its target address (`none` for nil), resolved through `Mem.ptrs`.
* `vfunc` carries the func type signature and its `IsNil` flag. -/
inductive Val where
  | vinvalid : Val
  | vbool (b : Bool) : Val
  | vint (n : Int) : Val
  | vint64 (n : Int) : Val
  | vf64 (nan : Bool) (rend : String) : Val
  | vf32 (nan : Bool) (rend : String) : Val
  | vstring (s : String) : Val
  | varr (addr : Option Nat) (elem : Ty) (elems : List Val) : Val
  | vslice (addr : Option Nat) (elem : Ty) (dat : Option (Nat × List Val)) : Val
  | vmap (addr : Option Nat) (key elem : Ty) (dat : Option Nat) : Val
  | vstruct (addr : Option Nat) (name : String) (fields : List (String × Val)) : Val
  | vptr (elem : Ty) (target : Option Nat) : Val
  | viface (inner : Option Val) : Val
  | vfunc (sig : String) (nilF : Bool) : Val

/-- `v.IsValid()`. -/
def Val.isValidb : Val → Bool
  | .vinvalid => false
  | _ => true

/-- `v.Type()`, as compared at lines 32/179 and stored in the visit key. -/
def tyOf : Val → Ty
  | .vinvalid => .tinvalid
  | .vbool _ => .tbool
  | .vint _ => .tint
  | .vint64 _ => .tint64
  | .vf64 _ _ => .tfloat64
  | .vf32 _ _ => .tfloat32
  | .vstring _ => .tstring
  | .varr _ t es => .tarr es.length t
  | .vslice _ t _ => .tslice t
  | .vmap _ kt vt _ => .tmap kt vt
  | .vstruct _ n _ => .tstruct n
  | .vptr t _ => .tptr t
  | .viface _ => .tiface
  | .vfunc s _ => .tfunc s

/-- The `hard` predicate of lines 36-42: the kinds whose addressable pairs
go through the cycle detector. -/
def hardKind : Val → Bool
  | .varr _ _ _ => true
  | .vslice _ _ _ => true
  | .vmap _ _ _ _ => true
  | .vstruct _ _ _ => true
  | _ => false

/-- `v.CanAddr()`/`v.UnsafeAddr()` merged: the address when addressable.
Only consulted for `hard` kinds (line 44), so the model only annotates
those. -/
def addrOf : Val → Option Nat
  | .varr a _ _ => a
  | .vslice a _ _ => a
  | .vmap a _ _ _ => a
  | .vstruct a _ _ => a
  | _ => none

/-- `v1.Kind() == reflect.Float64 && math.IsNaN(v1.Float())` of lines
153/155.  Note the kind test: a `float32` NaN does NOT satisfy it. -/
def isNaN64 : Val → Bool
  | .vf64 nan _ => nan
  | _ => false

/-- `fmt.Sprintf("%T", v)` where `v` is a `reflect.Value` (line 157).
`fmt` answers the `%T` verb with `reflect.TypeOf(arg).String()` before its
`reflect.Value` unwrapping rule applies, and the argument's static type is
`reflect.Value`; so this is constant. -/
def sprintfT (_ : Val) : String := "reflect.Value"

/-- The boolean analogue of `==` on Go comparable values, used by map key
lookup (`v2.MapIndex(k)`).  Floats follow IEEE `==`: a NaN key equals
nothing.  Slices, maps and funcs are not comparable in Go (they cannot be
map keys), so they compare `false` here; the walker never looks keys of
those kinds up. -/
def valEqb : Val → Val → Bool
  | .vbool a, .vbool b => a == b
  | .vint a, .vint b => a == b
  | .vint64 a, .vint64 b => a == b
  | .vf64 n1 r1, .vf64 n2 r2 => !n1 && !n2 && r1 == r2
  | .vf32 n1 r1, .vf32 n2 r2 => !n1 && !n2 && r1 == r2
  | .vstring a, .vstring b => a == b
  | .vptr t1 a1, .vptr t2 a2 => t1 == t2 && a1 == a2
  | .viface none, .viface none => true
  | .viface (some w1), .viface (some w2) => valEqb w1 w2
  | .varr _ t1 es1, .varr _ t2 es2 => t1 == t2 && valEqbL es1 es2
  | .vstruct _ n1 fs1, .vstruct _ n2 fs2 => n1 == n2 && valEqbFL fs1 fs2
  | _, _ => false
where
  /-- Elementwise `==` on array elements. -/
  valEqbL : List Val → List Val → Bool
    | [], [] => true
    | a :: as', b :: bs' => valEqb a b && valEqbL as' bs'
    | _, _ => false
  /-- Fieldwise `==` on struct fields. -/
  valEqbFL : List (String × Val) → List (String × Val) → Bool
    | [], [] => true
    | (_, a) :: as', (_, b) :: bs' => valEqb a b && valEqbFL as' bs'
    | _, _ => false

/-- Hexadecimal rendering of an address, as `%v` prints a pointer. -/
def hexStr (n : Nat) : String := "0x" ++ (Nat.toDigits 16 n).asString

/-- `fmt.Sprintf("%v", v)` for a `reflect.Value` (lines 137, 139, 141,
159-160): `fmt` replaces the `reflect.Value` by the concrete value it
holds and renders that.  The walker only renders leaf kinds (the default
branch of the switch) and map keys (which must be of a Go comparable
type); for completeness the comparable composites render in Go's style.
Maps, slices and funcs are not comparable and have dispatch branches of
their own, so `render` is never applied to them by the walker; they get
best-effort placeholders (a faithful rendering of a map would need the
memory, which `%v` of a key never requires). -/
def render : Val → String
  | .vinvalid => "<invalid reflect.Value>"
  | .vbool b => if b then "true" else "false"
  | .vint n => toString n
  | .vint64 n => toString n
  | .vf64 nan r => if nan then "NaN" else r
  | .vf32 nan r => if nan then "NaN" else r
  | .vstring s => s
  | .varr _ _ es => "[" ++ renderL es ++ "]"
  | .vslice _ _ none => "[]"
  | .vslice _ _ (some (_, es)) => "[" ++ renderL es ++ "]"
  | .vmap _ _ _ none => "map[]"
  | .vmap _ _ _ (some s) => "map[" ++ hexStr s ++ "]"
  | .vstruct _ _ fs => "\x7b" ++ renderFL fs ++ "\x7d"
  | .vptr _ none => "<nil>"
  | .vptr _ (some a) => hexStr a
  | .viface none => "<nil>"
  | .viface (some w) => render w
  | .vfunc _ _ => "func"
where
  /-- Space-separated element renderings. -/
  renderL : List Val → String
    | [] => ""
    | [v] => render v
    | v :: vs => render v ++ " " ++ renderL vs
  /-- Space-separated field renderings. -/
  renderFL : List (String × Val) → String
    | [] => ""
    | [(_, v)] => render v
    | (_, v) :: fs => render v ++ " " ++ renderFL fs

/-- The memory holding pointer targets and map storages, so that
self-referential values exist in the model. -/
structure Mem where
  ptrs : Nat → Val
  maps : Nat → List (Val × Val)

/-- `v.Elem()` on a pointer: the target, or the zero `reflect.Value` for a
nil pointer. -/
def derefP (mem : Mem) : Option Nat → Val
  | none => .vinvalid
  | some a => mem.ptrs a

/-- The `visit` struct of lines 16-20. -/
structure Visit where
  a1 : Nat
  a2 : Nat
  typ : Ty
deriving DecidableEq, Repr

/-- Lines 45-55: canonicalize the address pair (smaller address first,
"to reduce number of entries in visited") and pair it with the type. -/
def mkVisit (a1 a2 : Nat) (t : Ty) : Visit :=
  if a1 > a2 then ⟨a2, a1, t⟩ else ⟨a1, a2, t⟩

/-- The guard of line 44 packaged: `some key` exactly when both sides are
addressable and the kind is `hard`. -/
def visitKey (v1 v2 : Val) : Option Visit :=
  match addrOf v1, addrOf v2 with
  | some a1, some a2 => if hardKind v1 then some (mkVisit a1 a2 (tyOf v1)) else none
  | _, _ => none

/-- Result of a walker call: `none` = out of fuel (the Go call is still
running at that stack depth); `some (visited, none)` = returned `nil`;
`some (visited, some e)` = returned the error `e`.  The visited set is
returned because the Go `visited` map is shared mutable state. -/
abbrev Res := Option (List Visit × Option String)

/-- Lines 66-70 / 86-90: the elementwise index loop shared by the array
and slice branches, wrapping a child error in `[%d]`. -/
def idxLoop (recur : Val → Val → List Visit → Res) :
    Nat → List (Val × Val) → List Visit → Res
  | _, [], vis => some (vis, none)
  | i, (a, b) :: rest, vis =>
    match recur a b vis with
    | none => none
    | some (vis2, some e) => some (vis2, some ("[" ++ toString i ++ "]" ++ e))
    | some (vis2, none) => idxLoop recur (i + 1) rest vis2

/-- Lines 113-117: the struct field loop, wrapping a child error in
`.FieldName` (the name is taken from the first operand's type, as
`v1.Type().Field(i).Name` is). -/
def fieldLoop (recur : Val → Val → List Visit → Res) :
    List ((String × Val) × (String × Val)) → List Visit → Res
  | [], vis => some (vis, none)
  | ((n, a), (_, b)) :: rest, vis =>
    match recur a b vis with
    | none => none
    | some (vis2, some e) => some (vis2, some ("." ++ n ++ e))
    | some (vis2, none) => fieldLoop recur rest vis2

/-- `v.MapIndex(k)`: first entry with a key `==`-equal to `k`, else the
zero (invalid) `reflect.Value`, here `none`. -/
def lookupVal : List (Val × Val) → Val → Option Val
  | [], _ => none
  | (k, v) :: rest, key => if valEqb k key then some v else lookupVal rest key

/-- Lines 133-143: the map key loop.  The key list is `v1.MapKeys()` after
the iteration-order oracle; a key `%v`-renders into the `[%v]` locator. -/
def mapLoop (recur : Val → Val → List Visit → Res)
    (m1 m2 : List (Val × Val)) : List Val → List Visit → Res
  | [], vis => some (vis, none)
  | k :: ks, vis =>
    match lookupVal m1 k, lookupVal m2 k with
    | none, _ => some (vis, some ("[" ++ render k ++ "] is invalid in x"))
    | some _, none => some (vis, some ("[" ++ render k ++ "] is invalid in y"))
    | some x1, some x2 =>
      match recur x1 x2 vis with
      | none => none
      | some (vis2, some e) => some (vis2, some ("[" ++ render k ++ "]" ++ e))
      | some (vis2, none) => mapLoop recur m1 m2 ks vis2

/-- Lines 151-162: the leaf fallback (`default:` branch).  NaN check on
each side (Float64 kind only, `x` first), then the dead `%T` comparison
(see `sprintfT`), then the `%v` rendering comparison. -/
def leafCompare (a b : Val) (vis : List Visit) : Res :=
  if isNaN64 a then some (vis, some " in x is NaN float")
  else if isNaN64 b then some (vis, some " in y is NaN float")
  else if sprintfT a ≠ sprintfT b then
    some (vis, some (" have different types, where in x is " ++ sprintfT a ++
      " but in y is " ++ sprintfT b))
  else if render a ≠ render b then
    some (vis, some (" are not equal, where in x is " ++ render a ++
      " but in y is " ++ render b))
  else some (vis, none)

/-- The kind switch of lines 64-163, with the recursive call abstracted as
`recur` (the caller supplies the walker one fuel level down).  Pairs whose
kinds disagree cannot reach the switch (line 32 returned already); like
Go's `default:` they fall to `leafCompare`. -/
def deepDispatch (recur : Val → Val → List Visit → Res) (mem : Mem)
    (ord : List Val → List Val) (v1 v2 : Val) (vis : List Visit) : Res :=
  match v1, v2 with
  | .varr _ _ es1, .varr _ _ es2 => idxLoop recur 0 (es1.zip es2) vis
  | .vslice _ _ d1, .vslice _ _ d2 =>
    match d1, d2 with
    | none, none => some (vis, none)
    | none, some _ => some (vis, some " in x is nil but in y is not")
    | some _, none => some (vis, some " in y is nil but in x is not")
    | some (p1, es1), some (p2, es2) =>
      if es1.length ≠ es2.length then some (vis, some " do not have the same length")
      else if p1 = p2 then some (vis, none)
      else idxLoop recur 0 (es1.zip es2) vis
  | .viface i1, .viface i2 =>
    match i1, i2 with
    | none, none => some (vis, none)
    | none, some _ => some (vis, some " do not have the same interface")
    | some _, none => some (vis, some " do not have the same interface")
    | some w1, some w2 =>
      match recur w1 w2 vis with
      | none => none
      | some (vis2, some e) => some (vis2, some ("(Interface)" ++ e))
      | some (vis2, none) => some (vis2, none)
  | .vptr _ t1, .vptr _ t2 =>
    if t1 = t2 then some (vis, none)
    else
      match recur (derefP mem t1) (derefP mem t2) vis with
      | none => none
      | some (vis2, some e) => some (vis2, some ("(Ptr)" ++ e))
      | some (vis2, none) => some (vis2, none)
  | .vstruct _ _ fs1, .vstruct _ _ fs2 => fieldLoop recur (fs1.zip fs2) vis
  | .vmap _ _ _ d1, .vmap _ _ _ d2 =>
    match d1, d2 with
    | none, none => some (vis, none)
    | none, some _ => some (vis, some " are not equal, where in x is nil but in y is not")
    | some _, none => some (vis, some " are not equal, where in y is nil but in x is not")
    | some s1, some s2 =>
      if (mem.maps s1).length ≠ (mem.maps s2).length then
        some (vis, some (" do not have the same length, where in x is " ++
          toString (mem.maps s1).length ++ " but in y is " ++
          toString (mem.maps s2).length))
      else if s1 = s2 then some (vis, none)
      else mapLoop recur (mem.maps s1) (mem.maps s2)
        (ord ((mem.maps s1).map Prod.fst)) vis
  | .vfunc _ n1, .vfunc _ n2 =>
    if n1 && n2 then some (vis, none) else some (vis, some " has different func")
  | a, b => leafCompare a b vis

/-- Lines 22-165: `deepValueEqual`, with fuel standing for the call stack.
Validity guard (23-31), type guard (32-34), cycle detector (44-62: return
`nil` on a seen key, otherwise record the key before descending), then the
kind switch. -/
def deepValueEqual (mem : Mem) (ord : List Val → List Val) :
    Nat → Val → Val → List Visit → Res
  | 0, _, _, _ => none
  | fuel + 1, v1, v2, vis =>
    if !v1.isValidb || !v2.isValidb then
      if v1.isValidb == v2.isValidb then some (vis, none)
      else if !v1.isValidb then some (vis, some " in x is invalid but in y is not")
      else some (vis, some " in y is invalid but in x is not")
    else if tyOf v1 ≠ tyOf v2 then
      some (vis, some (" has different types, where in x is " ++ tyName (tyOf v1) ++
        " but in y is " ++ tyName (tyOf v2)))
    else
      match visitKey v1 v2 with
      | some k =>
        if k ∈ vis then some (vis, none)
        else deepDispatch (deepValueEqual mem ord fuel) mem ord v1 v2 (k :: vis)
      | none => deepDispatch (deepValueEqual mem ord fuel) mem ord v1 v2 vis

/-- Lines 167-187: `DeepEqualExplained`.  A `nil` interface argument is
`none`.  `none` as overall result means the fuel ran out inside the
walker; `some none` is success (`nil`), `some (some msg)` the returned
error. -/
def DeepEqualExplained (mem : Mem) (ord : List Val → List Val) (fuel : Nat) :
    Option Val → Option Val → Option (Option String)
  | none, none => some none
  | none, some _ => some (some "x is nil while y is not")
  | some _, none => some (some "y is nil while x is not")
  | some v1, some v2 =>
    if tyOf v1 ≠ tyOf v2 then
      some (some ("values have different types, where in x is " ++ tyName (tyOf v1) ++
        " but in y is " ++ tyName (tyOf v2)))
    else
      match deepValueEqual mem ord fuel v1 v2 [] with
      | none => none
      | some (_, none) => some none
      | some (_, some e) => some (some ("values" ++ e))

/-- Termination of a top-level call in the fuel model: some finite stack
depth suffices for the call to return. -/
def TerminatesOn (mem : Mem) (ord : List Val → List Val)
    (x y : Option Val) : Prop :=
  ∃ fuel, DeepEqualExplained mem ord fuel x y ≠ none

/-- The identity iteration-order oracle. -/
def idOrd : List Val → List Val := fun ks => ks

/-- The reversed iteration-order oracle (another order Go's randomized map
iteration can produce). -/
def revOrd : List Val → List Val := fun ks => ks.reverse

/-- An empty memory for examples that need none. -/
def mem0 : Mem := ⟨fun _ => .vinvalid, fun _ => []⟩

/-!
## Predicates used by the reflexivity and determinism theorems

When a value is compared with itself the walker never dereferences a
pointer (`v1.Pointer() == v2.Pointer()` holds, line 105), never walks a
slice (same storage, line 83) and never walks a map (same storage, line
130); it only descends array elements, struct fields and interface
contents.  `selfEqOK` marks the values whose self-comparison can reach no
float64 NaN (line 153) and no non-nil func (line 150) — the two leaf forms
that diverge from themselves — and `selfDepth` bounds the stack depth that
self-comparison needs. -/

/-- No float64 NaN and no non-nil func in the positions self-comparison
descends into (array elements, struct fields, interface contents). -/
def selfEqOK : Val → Bool
  | .vf64 nan _ => !nan
  | .vfunc _ nilF => nilF
  | .varr _ _ es => selfEqOKL es
  | .vstruct _ _ fs => selfEqOKFL fs
  | .viface (some w) => selfEqOK w
  | _ => true
where
  /-- All elements satisfy `selfEqOK`. -/
  selfEqOKL : List Val → Bool
    | [] => true
    | v :: vs => selfEqOK v && selfEqOKL vs
  /-- All fields satisfy `selfEqOK`. -/
  selfEqOKFL : List (String × Val) → Bool
    | [] => true
    | (_, v) :: fs => selfEqOK v && selfEqOKFL fs

/-- Stack depth needed to compare a value with itself (pointers, slices
and maps short-circuit, so they need only the current frame). -/
def selfDepth : Val → Nat
  | .varr _ _ es => selfDepthL es + 1
  | .vstruct _ _ fs => selfDepthFL fs + 1
  | .viface (some w) => selfDepth w + 1
  | _ => 1
where
  /-- Maximum of the elements' depths. -/
  selfDepthL : List Val → Nat
    | [] => 0
    | v :: vs => max (selfDepth v) (selfDepthL vs)
  /-- Maximum of the fields' depths. -/
  selfDepthFL : List (String × Val) → Nat
    | [] => 0
    | (_, v) :: fs => max (selfDepth v) (selfDepthFL fs)

/-- No map value anywhere in a value (descending arrays, slice elements,
struct fields and interface contents).  On map-free inputs the walker
never consults the iteration-order oracle. -/
def mapFreeV : Val → Bool
  | .vmap _ _ _ _ => false
  | .varr _ _ es => mapFreeL es
  | .vslice _ _ (some (_, es)) => mapFreeL es
  | .vstruct _ _ fs => mapFreeFL fs
  | .viface (some w) => mapFreeV w
  | _ => true
where
  /-- All elements are map-free. -/
  mapFreeL : List Val → Bool
    | [] => true
    | v :: vs => mapFreeV v && mapFreeL vs
  /-- All fields are map-free. -/
  mapFreeFL : List (String × Val) → Bool
    | [] => true
    | (_, v) :: fs => mapFreeV v && mapFreeFL fs

/-- A memory is map-free when every pointer target is. -/
def MemMapFree (mem : Mem) : Prop := ∀ n, mapFreeV (mem.ptrs n) = true

/-- Leaf kinds: the ones the kind switch of lines 64-163 sends to the
`default:` fallback. -/
def leafKind : Val → Bool
  | .vbool _ => true
  | .vint _ => true
  | .vint64 _ => true
  | .vf64 _ _ => true
  | .vf32 _ _ => true
  | .vstring _ => true
  | _ => false

/-!
## Concrete values and memories for the counterexamples

`memNode`: two distinct self-referential records, Go shape
`type Node struct ( Next *Node )` with `a.Next = a` and `b.Next = b`,
the `Node` cells living at addresses 1 and 2.

`memCyc`: two distinct self-containing maps of Go type
`map[string]interface]` — `m1["k"] = m1` and `m2["k"] = m2` — with map
storages 10 and 20.  Map elements are not addressable, so the cycle
detector never sees these pairs and the walker recurses forever.

`memTwoDiff`: two maps `map[string]int` with storages 30 and 40 that
differ at both keys `"a"` and `"b"`. -/

/-- The self-referential `Node` record at address `a`. -/
def nodeAt (a : Nat) : Val :=
  .vstruct (some a) "Node" [("Next", .vptr (.tstruct "Node") (some a))]

/-- Memory holding the two self-referential records. -/
def memNode : Mem :=
  ⟨fun a => if a = 1 then nodeAt 1 else if a = 2 then nodeAt 2 else .vinvalid,
   fun _ => []⟩

/-- The self-containing map with storage `s` (element type `interface`). -/
def cycMap (s : Nat) : Val := .vmap none .tstring .tiface (some s)

/-- Memory holding the two self-containing maps. -/
def memCyc : Mem :=
  ⟨fun _ => .vinvalid,
   fun s =>
     if s = 10 then [(.vstring "k", .viface (some (cycMap 10)))]
     else if s = 20 then [(.vstring "k", .viface (some (cycMap 20)))]
     else []⟩

/-- A `map[string]int` value with storage `s`. -/
def simpleMap (s : Nat) : Val := .vmap none .tstring .tint (some s)

/-- Memory holding two maps that differ at two keys. -/
def memTwoDiff : Mem :=
  ⟨fun _ => .vinvalid,
   fun s =>
     if s = 30 then [(.vstring "a", .vint 1), (.vstring "b", .vint 1)]
     else if s = 40 then [(.vstring "a", .vint 2), (.vstring "b", .vint 2)]
     else []⟩

/-!
## Helper lemmas
-/

theorem selfDepth_pos (v : Val) : 1 ≤ selfDepth v := by
  cases v with
  | viface inner => cases inner <;> simp [selfDepth]
  | _ => simp [selfDepth]

theorem mem_zip_self {α : Type} {l : List α} {p : α × α} (hp : p ∈ l.zip l) :
    p.1 = p.2 ∧ p.1 ∈ l := by
  induction l with
  | nil => simp [List.zip] at hp
  | cons a as ih =>
    rw [List.zip_cons_cons] at hp
    rcases List.mem_cons.mp hp with h | h
    · subst h; exact ⟨rfl, by simp⟩
    · obtain ⟨h1, h2⟩ := ih h
      exact ⟨h1, by simp [h2]⟩

theorem selfEqOKL_mem {es : List Val} (h : selfEqOK.selfEqOKL es = true)
    {e : Val} (he : e ∈ es) : selfEqOK e = true := by
  induction es with
  | nil => cases he
  | cons a as ih =>
    simp [selfEqOK.selfEqOKL] at h
    rcases List.mem_cons.mp he with rfl | he
    · exact h.1
    · exact ih h.2 he

theorem selfEqOKFL_mem {fs : List (String × Val)} (h : selfEqOK.selfEqOKFL fs = true)
    {f : String × Val} (hf : f ∈ fs) : selfEqOK f.2 = true := by
  induction fs with
  | nil => cases hf
  | cons a as ih =>
    obtain ⟨n, v⟩ := a
    simp [selfEqOK.selfEqOKFL] at h
    rcases List.mem_cons.mp hf with rfl | hf
    · exact h.1
    · exact ih h.2 hf

theorem selfDepthL_mem {es : List Val} {e : Val} (he : e ∈ es) :
    selfDepth e ≤ selfDepth.selfDepthL es := by
  induction es with
  | nil => cases he
  | cons a as ih =>
    rcases List.mem_cons.mp he with rfl | he
    · simp [selfDepth.selfDepthL]
    · calc selfDepth e ≤ selfDepth.selfDepthL as := ih he
        _ ≤ _ := by simp [selfDepth.selfDepthL]

theorem selfDepthFL_mem {fs : List (String × Val)} {f : String × Val} (hf : f ∈ fs) :
    selfDepth f.2 ≤ selfDepth.selfDepthFL fs := by
  induction fs with
  | nil => cases hf
  | cons a as ih =>
    obtain ⟨n, v⟩ := a
    rcases List.mem_cons.mp hf with rfl | hf
    · simp [selfDepth.selfDepthFL]
    · calc selfDepth f.2 ≤ selfDepth.selfDepthFL as := ih hf
        _ ≤ _ := by simp [selfDepth.selfDepthFL]

theorem idxLoop_all_nil (recur : Val → Val → List Visit → Res)
    (ps : List (Val × Val))
    (h : ∀ p ∈ ps, ∀ vis, ∃ vis2, recur p.1 p.2 vis = some (vis2, none)) :
    ∀ i vis, ∃ vis2, idxLoop recur i ps vis = some (vis2, none) := by
  induction ps with
  | nil => intro i vis; exact ⟨vis, rfl⟩
  | cons p rest ih =>
    intro i vis
    obtain ⟨a, b⟩ := p
    obtain ⟨vis2, e⟩ := h (a, b) (by simp) vis
    rw [idxLoop, e]
    exact ih (fun q hq vis => h q (by simp [hq]) vis) (i + 1) vis2

theorem fieldLoop_all_nil (recur : Val → Val → List Visit → Res)
    (ps : List ((String × Val) × (String × Val)))
    (h : ∀ p ∈ ps, ∀ vis, ∃ vis2, recur p.1.2 p.2.2 vis = some (vis2, none)) :
    ∀ vis, ∃ vis2, fieldLoop recur ps vis = some (vis2, none) := by
  induction ps with
  | nil => intro vis; exact ⟨vis, rfl⟩
  | cons p rest ih =>
    intro vis
    obtain ⟨⟨n, a⟩, ⟨m, b⟩⟩ := p
    obtain ⟨vis2, e⟩ := h ((n, a), (m, b)) (by simp) vis
    rw [fieldLoop, e]
    exact ih (fun q hq vis => h q (by simp [hq]) vis) vis2

theorem run_self_step (mem : Mem) (ord : List Val → List Val) (fuel : Nat)
    (v : Val) (vis : List Visit) (hv : v.isValidb = true)
    (hdisp : ∀ vis, ∃ vis2,
      deepDispatch (deepValueEqual mem ord fuel) mem ord v v vis = some (vis2, none)) :
    ∃ vis2, deepValueEqual mem ord (fuel + 1) v v vis = some (vis2, none) := by
  cases hk : visitKey v v with
  | none => simpa [deepValueEqual, hv, hk] using hdisp vis
  | some k =>
    by_cases hm : k ∈ vis
    · exact ⟨vis, by simp [deepValueEqual, hv, hk, hm]⟩
    · simpa [deepValueEqual, hv, hk, hm] using hdisp (k :: vis)

theorem deepValueEqual_self (mem : Mem) (ord : List Val → List Val) :
    ∀ (fuel : Nat) (v : Val) (vis : List Visit), selfEqOK v = true →
      selfDepth v ≤ fuel →
      ∃ vis2, deepValueEqual mem ord fuel v v vis = some (vis2, none) := by
  intro fuel
  induction fuel with
  | zero => intro v vis _ hd; exact absurd hd (by have := selfDepth_pos v; omega)
  | succ fuel ih =>
    intro v vis hok hd
    cases v with
    | vinvalid => exact ⟨vis, by simp [deepValueEqual, Val.isValidb]⟩
    | vbool b =>
      exact run_self_step mem ord fuel _ vis rfl
        (fun vis => ⟨vis, by simp [deepDispatch, leafCompare, isNaN64, sprintfT]⟩)
    | vint n =>
      exact run_self_step mem ord fuel _ vis rfl
        (fun vis => ⟨vis, by simp [deepDispatch, leafCompare, isNaN64, sprintfT]⟩)
    | vint64 n =>
      exact run_self_step mem ord fuel _ vis rfl
        (fun vis => ⟨vis, by simp [deepDispatch, leafCompare, isNaN64, sprintfT]⟩)
    | vstring s =>
      exact run_self_step mem ord fuel _ vis rfl
        (fun vis => ⟨vis, by simp [deepDispatch, leafCompare, isNaN64, sprintfT]⟩)
    | vf32 nan r =>
      exact run_self_step mem ord fuel _ vis rfl
        (fun vis => ⟨vis, by simp [deepDispatch, leafCompare, isNaN64, sprintfT]⟩)
    | vf64 nan r =>
      simp [selfEqOK] at hok
      subst hok
      exact run_self_step mem ord fuel _ vis rfl
        (fun vis => ⟨vis, by simp [deepDispatch, leafCompare, isNaN64, sprintfT]⟩)
    | vfunc s nilF =>
      simp [selfEqOK] at hok
      subst hok
      exact run_self_step mem ord fuel _ vis rfl
        (fun vis => ⟨vis, by simp [deepDispatch]⟩)
    | vptr t tgt =>
      exact run_self_step mem ord fuel _ vis rfl (fun vis => ⟨vis, by simp [deepDispatch]⟩)
    | viface inner =>
      cases inner with
      | none =>
        exact run_self_step mem ord fuel _ vis rfl (fun vis => ⟨vis, by simp [deepDispatch]⟩)
      | some w =>
        simp [selfEqOK] at hok
        simp [selfDepth] at hd
        refine run_self_step mem ord fuel _ vis rfl (fun vis => ?_)
        obtain ⟨vis2, e⟩ := ih w vis hok (by omega)
        exact ⟨vis2, by simp [deepDispatch, e]⟩
    | vslice a t dat =>
      refine run_self_step mem ord fuel _ vis rfl (fun vis => ?_)
      rcases dat with _ | ⟨p, es⟩
      · exact ⟨vis, by simp [deepDispatch]⟩
      · exact ⟨vis, by simp [deepDispatch]⟩
    | vmap a kt vt dat =>
      refine run_self_step mem ord fuel _ vis rfl (fun vis => ?_)
      rcases dat with _ | s
      · exact ⟨vis, by simp [deepDispatch]⟩
      · exact ⟨vis, by simp [deepDispatch]⟩
    | varr a t es =>
      simp [selfEqOK] at hok
      simp [selfDepth] at hd
      refine run_self_step mem ord fuel _ vis rfl (fun vis => ?_)
      have hloop := idxLoop_all_nil (deepValueEqual mem ord fuel) (es.zip es) ?_ 0 vis
      · simpa [deepDispatch] using hloop
      · intro p hp vis
        obtain ⟨h1, h2⟩ := mem_zip_self hp
        rw [← h1]
        exact ih p.1 vis (selfEqOKL_mem hok h2)
          (le_trans (selfDepthL_mem h2) (by omega))
    | vstruct a n fs =>
      simp [selfEqOK] at hok
      simp [selfDepth] at hd
      refine run_self_step mem ord fuel _ vis rfl (fun vis => ?_)
      have hloop := fieldLoop_all_nil (deepValueEqual mem ord fuel) (fs.zip fs) ?_ vis
      · simpa [deepDispatch] using hloop
      · intro p hp vis
        obtain ⟨h1, h2⟩ := mem_zip_self hp
        rw [← h1]
        exact ih p.1.2 vis (selfEqOKFL_mem hok h2)
          (le_trans (selfDepthFL_mem h2) (by omega))

theorem deepValueEqual_cyc_none :
    ∀ (fuel : Nat) (vis : List Visit),
      deepValueEqual memCyc idOrd fuel (cycMap 10) (cycMap 20) vis = none := by
  intro fuel
  induction fuel using Nat.strong_induction_on with
  | _ fuel ih =>
    match fuel with
    | 0 => intro vis; rfl
    | 1 => intro vis; rfl
    | (j + 2) =>
      intro vis
      have h := ih j (by omega) vis
      simp only [cycMap] at h
      have m10 : memCyc.maps 10 =
        [(.vstring "k", .viface (some (.vmap none .tstring .tiface (some 10))))] := rfl
      have m20 : memCyc.maps 20 =
        [(.vstring "k", .viface (some (.vmap none .tstring .tiface (some 20))))] := rfl
      simp [deepValueEqual, deepDispatch, visitKey, addrOf, tyOf, Val.isValidb,
        cycMap, mapLoop, lookupVal, valEqb, idOrd, hardKind, m10, m20, h]

theorem mapFreeL_mem {es : List Val} (h : mapFreeV.mapFreeL es = true)
    {e : Val} (he : e ∈ es) : mapFreeV e = true := by
  induction es with
  | nil => cases he
  | cons a as ih =>
    simp [mapFreeV.mapFreeL] at h
    rcases List.mem_cons.mp he with rfl | he
    · exact h.1
    · exact ih h.2 he

theorem mapFreeFL_mem {fs : List (String × Val)} (h : mapFreeV.mapFreeFL fs = true)
    {f : String × Val} (hf : f ∈ fs) : mapFreeV f.2 = true := by
  induction fs with
  | nil => cases hf
  | cons a as ih =>
    obtain ⟨n, v⟩ := a
    simp [mapFreeV.mapFreeFL] at h
    rcases List.mem_cons.mp hf with rfl | hf
    · exact h.1
    · exact ih h.2 hf

theorem idxLoop_congr {r1 r2 : Val → Val → List Visit → Res} :
    ∀ {ps : List (Val × Val)},
      (∀ p ∈ ps, ∀ vis, r1 p.1 p.2 vis = r2 p.1 p.2 vis) →
      ∀ i vis, idxLoop r1 i ps vis = idxLoop r2 i ps vis := by
  intro ps
  induction ps with
  | nil => intro _ i vis; rfl
  | cons p rest ih =>
    intro h i vis
    obtain ⟨a, b⟩ := p
    rw [idxLoop, idxLoop, ← h (a, b) (by simp) vis]
    cases r1 a b vis with
    | none => rfl
    | some res =>
      obtain ⟨vis2, e⟩ := res
      cases e with
      | none => exact ih (fun q hq vis => h q (by simp [hq]) vis) (i + 1) vis2
      | some msg => rfl

theorem fieldLoop_congr {r1 r2 : Val → Val → List Visit → Res} :
    ∀ {ps : List ((String × Val) × (String × Val))},
      (∀ p ∈ ps, ∀ vis, r1 p.1.2 p.2.2 vis = r2 p.1.2 p.2.2 vis) →
      ∀ vis, fieldLoop r1 ps vis = fieldLoop r2 ps vis := by
  intro ps
  induction ps with
  | nil => intro _ vis; rfl
  | cons p rest ih =>
    intro h vis
    obtain ⟨⟨n, a⟩, ⟨m, b⟩⟩ := p
    rw [fieldLoop, fieldLoop, ← h ((n, a), (m, b)) (by simp) vis]
    cases r1 a b vis with
    | none => rfl
    | some res =>
      obtain ⟨vis2, e⟩ := res
      cases e with
      | none => exact ih (fun q hq vis => h q (by simp [hq]) vis) vis2
      | some msg => rfl

theorem deepDispatch_ord_congr (mem : Mem) (ord1 ord2 : List Val → List Val)
    (r1 r2 : Val → Val → List Visit → Res)
    (hmem : MemMapFree mem)
    (hr : ∀ a b, mapFreeV a = true → mapFreeV b = true →
      ∀ vis, r1 a b vis = r2 a b vis) :
    ∀ v1 v2, mapFreeV v1 = true → mapFreeV v2 = true →
      ∀ vis, deepDispatch r1 mem ord1 v1 v2 vis = deepDispatch r2 mem ord2 v1 v2 vis := by
  intro v1 v2 h1 h2 vis
  cases v1 with
  | varr a t es =>
    cases v2 with
    | varr a2 t2 es2 =>
      simp only [deepDispatch]
      refine idxLoop_congr (fun p hp vis => ?_) 0 vis
      obtain ⟨hm1, hm2⟩ := List.of_mem_zip hp
      exact hr p.1 p.2 (mapFreeL_mem (by simpa [mapFreeV] using h1) hm1)
        (mapFreeL_mem (by simpa [mapFreeV] using h2) hm2) vis
    | _ => rfl
  | vslice a t dat =>
    cases v2 with
    | vslice a2 t2 dat2 =>
      rcases dat with _ | ⟨p, es⟩ <;> rcases dat2 with _ | ⟨p2, es2⟩ <;>
        (simp only [deepDispatch]; try rfl)
      by_cases hlen : es.length ≠ es2.length
      · simp [hlen]
      · simp only [hlen, if_false]
        by_cases hp : p = p2
        · simp [hp]
        · simp only [hp, if_false, if_neg hp]
          refine idxLoop_congr (fun q hq vis => ?_) 0 vis
          obtain ⟨hm1, hm2⟩ := List.of_mem_zip hq
          exact hr q.1 q.2 (mapFreeL_mem (by simpa [mapFreeV] using h1) hm1)
            (mapFreeL_mem (by simpa [mapFreeV] using h2) hm2) vis
    | _ => rfl
  | vmap a kt vt dat => exact absurd h1 (by simp [mapFreeV])
  | vstruct a n fs =>
    cases v2 with
    | vstruct a2 n2 fs2 =>
      simp only [deepDispatch]
      refine fieldLoop_congr (fun p hp vis => ?_) vis
      obtain ⟨hm1, hm2⟩ := List.of_mem_zip hp
      exact hr p.1.2 p.2.2 (mapFreeFL_mem (by simpa [mapFreeV] using h1) hm1)
        (mapFreeFL_mem (by simpa [mapFreeV] using h2) hm2) vis
    | _ => rfl
  | vptr t tgt =>
    cases v2 with
    | vptr t2 tgt2 =>
      simp only [deepDispatch]
      by_cases he : tgt = tgt2
      · simp [he]
      · simp only [he, if_false, if_neg he]
        have hd1 : mapFreeV (derefP mem tgt) = true := by
          cases tgt with
          | none => rfl
          | some a => exact hmem a
        have hd2 : mapFreeV (derefP mem tgt2) = true := by
          cases tgt2 with
          | none => rfl
          | some a => exact hmem a
        rw [hr _ _ hd1 hd2 vis]
    | _ => rfl
  | viface inner =>
    cases v2 with
    | viface inner2 =>
      rcases inner with _ | w <;> rcases inner2 with _ | w2 <;>
        (simp only [deepDispatch]; try rfl)
      rw [hr w w2 (by simpa [mapFreeV] using h1) (by simpa [mapFreeV] using h2) vis]
    | _ => rfl
  | vinvalid => cases v2 <;> rfl
  | vbool b => cases v2 <;> rfl
  | vint n => cases v2 <;> rfl
  | vint64 n => cases v2 <;> rfl
  | vf64 nan r => cases v2 <;> rfl
  | vf32 nan r => cases v2 <;> rfl
  | vstring s => cases v2 <;> rfl
  | vfunc s nilF => cases v2 <;> rfl

theorem deepValueEqual_ord_indep (mem : Mem) (ord1 ord2 : List Val → List Val)
    (hmem : MemMapFree mem) :
    ∀ (fuel : Nat) (v1 v2 : Val) (vis : List Visit),
      mapFreeV v1 = true → mapFreeV v2 = true →
      deepValueEqual mem ord1 fuel v1 v2 vis = deepValueEqual mem ord2 fuel v1 v2 vis := by
  intro fuel
  induction fuel with
  | zero => intros; rfl
  | succ fuel ih =>
    intro v1 v2 vis h1 h2
    simp only [deepValueEqual]
    by_cases hv : (!v1.isValidb || !v2.isValidb) = true
    · simp [hv]
    · simp only [hv, Bool.false_eq_true, if_false]
      by_cases hty : tyOf v1 = tyOf v2
      · simp only [hty, ne_eq, not_true_eq_false, if_false]
        cases hk : visitKey v1 v2 with
        | none =>
          exact deepDispatch_ord_congr mem ord1 ord2 _ _ hmem
            (fun a b ha hb vis => ih a b vis ha hb) v1 v2 h1 h2 vis
        | some k =>
          by_cases hm : k ∈ vis
          · simp [hm]
          · simp only [hm, if_false, if_neg hm]
            exact deepDispatch_ord_congr mem ord1 ord2 _ _ hmem
              (fun a b ha hb vis => ih a b vis ha hb) v1 v2 h1 h2 (k :: vis)
      · simp [hty]

/-!
## Claim theorems
-/

/-- Claim C1 (counterexample): the claim says any floating-point NaN leaf,
of any width, always yields a NaN-specific divergence and never `Equal`.
But the NaN test of lines 153/155 checks `reflect.Float64` only, so two
`float32` NaNs fall to the `%v` rendering comparison, where both render
as `"NaN"`, and the comparison returns `Equal`. -/
theorem float32_nan_pair_reports_equal :
    DeepEqualExplained mem0 idOrd 2 (some (.vf32 true "")) (some (.vf32 true "")) =
      some none := by decide

/-- Claim C1 (amended): for `float64` leaves the claim holds: whenever
either side is a NaN the walker reports the NaN-specific divergence
(`x` is checked first, so a double-NaN pair reports `x`), and never
`Equal`; `float32` NaNs are not special-cased. -/
theorem float64_nan_leaf_divergence (mem : Mem) (ord : List Val → List Val)
    (fuel : Nat) (b1 b2 : Bool) (r1 r2 : String) (h : b1 = true ∨ b2 = true) :
    DeepEqualExplained mem ord (fuel + 1) (some (.vf64 b1 r1)) (some (.vf64 b2 r2)) =
      some (some ("values" ++
        (if b1 then " in x is NaN float" else " in y is NaN float"))) := by
  cases b1 <;> cases b2 <;>
    simp_all [DeepEqualExplained, deepValueEqual, deepDispatch, leafCompare, visitKey,
      addrOf, tyOf, Val.isValidb, isNaN64, sprintfT]

/-- Witness for C1's amended theorem at a concrete input: NaN vs 1.5. -/
theorem float64_nan_leaf_divergence_witness :
    (true = true ∨ false = true) ∧
    DeepEqualExplained mem0 idOrd 1 (some (.vf64 true "NaN")) (some (.vf64 false "1.5")) =
      some (some ("values" ++
        (if true then " in x is NaN float" else " in y is NaN float"))) :=
  ⟨Or.inl rfl, float64_nan_leaf_divergence mem0 idOrd 0 true false "NaN" "1.5" (Or.inl rfl)⟩

/-- Claim C2 (counterexample): the claim says every comparison call
terminates, including on cyclic graphs.  But the cycle detector only
guards pairs where both sides are `CanAddr` (line 44), and map elements
are never addressable: two distinct maps of type `map[string]interface`
that each contain themselves under key `"k"` make the walker recurse
forever (map → interface → map → …) with no fuel bound sufficing. -/
theorem cyclic_maps_never_terminate :
    ¬ TerminatesOn memCyc idOrd (some (cycMap 10)) (some (cycMap 20)) := by
  rintro ⟨fuel, hne⟩
  have h := deepValueEqual_cyc_none fuel []
  simp only [cycMap] at h
  exact hne (by simp [DeepEqualExplained, tyOf, cycMap, h])

/-- Claim C2 (amended): the self-referential-record case does hold: two
distinct records of Go shape `Node` with `Next *Node` pointing back to
themselves compare `Equal`, and the call terminates (the addressable
struct pair is recorded in the visited set before the descent, so the
second arrival short-circuits).  Universal termination, however, fails
(see the counterexample). -/
theorem self_referential_record_equal :
    DeepEqualExplained memNode idOrd 6 (some (.vptr (.tstruct "Node") (some 1)))
      (some (.vptr (.tstruct "Node") (some 2))) = some none ∧
    TerminatesOn memNode idOrd (some (.vptr (.tstruct "Node") (some 1)))
      (some (.vptr (.tstruct "Node") (some 2))) :=
  ⟨by decide, ⟨6, by decide⟩⟩

/-- Claim C3 (counterexample): the claim says comparing any acyclic value
to itself yields `Equal`.  A float64 NaN is acyclic, yet comparing it to
itself reports the NaN divergence (line 153), not `Equal`.  (A non-nil
func value likewise reports " has different func" against itself.) -/
theorem nan_self_comparison_not_equal :
    DeepEqualExplained mem0 idOrd 1 (some (.vf64 true "NaN")) (some (.vf64 true "NaN")) =
      some (some "values in x is NaN float") := by decide

/-- Claim C3 (amended): comparing a value to itself yields `Equal`
provided no float64 NaN leaf and no non-nil func leaf occurs in the
positions self-comparison descends into (array elements, struct fields,
interface contents — pointers, slices and maps short-circuit on identical
identity before descending, lines 83, 105, 130).  In particular every
acyclic value free of float64 NaNs and non-nil funcs compares `Equal`
with itself, at any fuel at least its depth. -/
theorem self_comparison_equal (mem : Mem) (ord : List Val → List Val)
    (v : Val) (fuel : Nat) (hok : selfEqOK v = true) (hd : selfDepth v ≤ fuel) :
    DeepEqualExplained mem ord fuel (some v) (some v) = some none := by
  obtain ⟨vis2, e⟩ := deepValueEqual_self mem ord fuel v [] hok hd
  simp [DeepEqualExplained, e]

/-- Witness for C3's amended theorem at a concrete acyclic record. -/
theorem self_comparison_equal_witness :
    (selfEqOK (.vstruct (some 3) "S" [("A", .vint 1), ("B", .viface (some (.vbool true)))]) =
      true) ∧
    (selfDepth (.vstruct (some 3) "S" [("A", .vint 1), ("B", .viface (some (.vbool true)))]) ≤
      3) ∧
    DeepEqualExplained mem0 idOrd 3
      (some (.vstruct (some 3) "S" [("A", .vint 1), ("B", .viface (some (.vbool true)))]))
      (some (.vstruct (some 3) "S" [("A", .vint 1), ("B", .viface (some (.vbool true)))])) =
      some none :=
  ⟨by decide, by decide,
    self_comparison_equal mem0 idOrd _ 3 (by decide) (by decide)⟩

/-- Claim C4: the entry guard (lines 167-181).  Both inputs nil gives
`Equal`; exactly one nil gives a divergence naming the absent side;
differing top-level types give a divergence carrying both type names.
The statement holds for every fuel, including `0`, which shows the three
checks happen before any recursive descent (the walker is only invoked in
the remaining case). -/
theorem entry_guard_checks (mem : Mem) (ord : List Val → List Val) (fuel : Nat) :
    DeepEqualExplained mem ord fuel none none = some none ∧
    (∀ v, DeepEqualExplained mem ord fuel none (some v) =
      some (some "x is nil while y is not")) ∧
    (∀ v, DeepEqualExplained mem ord fuel (some v) none =
      some (some "y is nil while x is not")) ∧
    (∀ v1 v2, tyOf v1 ≠ tyOf v2 → DeepEqualExplained mem ord fuel (some v1) (some v2) =
      some (some ("values have different types, where in x is " ++ tyName (tyOf v1) ++
        " but in y is " ++ tyName (tyOf v2)))) := by
  refine ⟨rfl, fun v => rfl, fun v => rfl, fun v1 v2 h => ?_⟩
  simp [DeepEqualExplained, h]

/-- Witness for C4 at concrete inputs and fuel `0`. -/
theorem entry_guard_checks_witness :
    DeepEqualExplained mem0 idOrd 0 none none = some none ∧
    DeepEqualExplained mem0 idOrd 0 none (some (.vint 1)) =
      some (some "x is nil while y is not") ∧
    DeepEqualExplained mem0 idOrd 0 (some (.vint 1)) none =
      some (some "y is nil while x is not") ∧
    (tyOf (.vint 1) ≠ tyOf (.vstring "s")) ∧
    DeepEqualExplained mem0 idOrd 0 (some (.vint 1)) (some (.vstring "s")) =
      some (some ("values have different types, where in x is " ++ tyName (tyOf (.vint 1)) ++
        " but in y is " ++ tyName (tyOf (.vstring "s")))) := by
  obtain ⟨h1, h2, h3, h4⟩ := entry_guard_checks mem0 idOrd 0
  exact ⟨h1, h2 _, h3 _, by decide, h4 _ _ (by decide)⟩

/-- Claim C5: lines 44-62.  For a valid, type-equal pair of addressable
hard-kind values (`visitKey` returns `some k` exactly for addressable
Array/Slice/Map/Struct pairs, with the canonicalized address order): if
the key is already in the visited set the walker returns `Equal` at once
without dispatching; otherwise the walker's result is exactly the kind
dispatch run with `k` inserted first, so the children see the key already
recorded. -/
theorem visited_pair_short_circuits_and_inserts_before_descent
    (mem : Mem) (ord : List Val → List Val) (fuel : Nat)
    (v1 v2 : Val) (vis : List Visit) (k : Visit)
    (h1 : v1.isValidb = true) (h2 : v2.isValidb = true)
    (hty : tyOf v1 = tyOf v2) (hk : visitKey v1 v2 = some k) :
    (k ∈ vis → deepValueEqual mem ord (fuel + 1) v1 v2 vis = some (vis, none)) ∧
    (k ∉ vis → deepValueEqual mem ord (fuel + 1) v1 v2 vis =
      deepDispatch (deepValueEqual mem ord fuel) mem ord v1 v2 (k :: vis)) := by
  constructor <;> intro hmem <;> simp [deepValueEqual, h1, h2, hty, hk, hmem]

/-- Witness for C5 at a concrete addressable struct pair: with the key
present the walker answers `Equal` immediately; with it absent the walker
equals the dispatch run on the enlarged visited set. -/
theorem visited_pair_short_circuits_and_inserts_before_descent_witness :
    deepValueEqual mem0 idOrd 1 (.vstruct (some 5) "S" []) (.vstruct (some 7) "S" [])
      [⟨5, 7, .tstruct "S"⟩] = some ([⟨5, 7, .tstruct "S"⟩], none) ∧
    deepValueEqual mem0 idOrd 1 (.vstruct (some 5) "S" []) (.vstruct (some 7) "S" []) [] =
      deepDispatch (deepValueEqual mem0 idOrd 0) mem0 idOrd
        (.vstruct (some 5) "S" []) (.vstruct (some 7) "S" []) [⟨5, 7, .tstruct "S"⟩] :=
  ⟨(visited_pair_short_circuits_and_inserts_before_descent mem0 idOrd 0
      (.vstruct (some 5) "S" []) (.vstruct (some 7) "S" [])
      [⟨5, 7, .tstruct "S"⟩] ⟨5, 7, .tstruct "S"⟩ rfl rfl rfl (by decide)).1 (by decide),
   (visited_pair_short_circuits_and_inserts_before_descent mem0 idOrd 0
      (.vstruct (some 5) "S" []) (.vstruct (some 7) "S" [])
      [] ⟨5, 7, .tstruct "S"⟩ rfl rfl rfl (by decide)).2 (by decide)⟩

/-- Claim C6: lines 119-132.  Two non-nil maps of differing length produce
the length-mismatch divergence carrying both lengths, before any key-level
comparison: the result is the same for every iteration-order oracle and
every entry contents of the two storages, and even at walker fuel `1`,
where any child comparison would have run out of fuel. -/
theorem map_length_mismatch_before_keys (mem : Mem) (ord : List Val → List Val)
    (fuel : Nat) (a1 a2 : Option Nat) (kt vt : Ty) (s1 s2 : Nat)
    (h : (mem.maps s1).length ≠ (mem.maps s2).length) :
    DeepEqualExplained mem ord (fuel + 1) (some (.vmap a1 kt vt (some s1)))
      (some (.vmap a2 kt vt (some s2))) =
      some (some ("values" ++ (" do not have the same length, where in x is " ++
        toString (mem.maps s1).length ++ " but in y is " ++
        toString (mem.maps s2).length))) := by
  cases a1 <;> cases a2 <;>
    simp [DeepEqualExplained, deepValueEqual, deepDispatch, visitKey, addrOf,
      hardKind, tyOf, Val.isValidb, mkVisit, h]

/-- Witness for C6: the two-entry map against an empty storage, at walker
fuel `1`, reports lengths 2 and 0. -/
theorem map_length_mismatch_before_keys_witness :
    ((memTwoDiff.maps 30).length ≠ (memTwoDiff.maps 99).length) ∧
    DeepEqualExplained memTwoDiff idOrd 1 (some (.vmap none .tstring .tint (some 30)))
      (some (.vmap none .tstring .tint (some 99))) =
      some (some ("values" ++ (" do not have the same length, where in x is " ++
        toString (memTwoDiff.maps 30).length ++ " but in y is " ++
        toString (memTwoDiff.maps 99).length))) :=
  ⟨by decide, map_length_mismatch_before_keys memTwoDiff idOrd 0 none none
    .tstring .tint 30 99 (by decide)⟩

/-- Claim C7: lines 83-85 and 130-132.  A slice pair sharing the storage
pointer (after the nil and length checks pass) and a map pair sharing the
storage pointer compare `Equal` immediately: the result holds for every
element contents of the two sides and at walker fuel `1`, where any
element comparison would have run out of fuel — no element is
inspected. -/
theorem same_storage_short_circuit (mem : Mem) (ord : List Val → List Val)
    (fuel : Nat) (a1 a2 a3 a4 : Option Nat) (t kt vt : Ty) (p s : Nat)
    (es1 es2 : List Val) (h : es1.length = es2.length) :
    DeepEqualExplained mem ord (fuel + 1) (some (.vslice a1 t (some (p, es1))))
      (some (.vslice a2 t (some (p, es2)))) = some none ∧
    DeepEqualExplained mem ord (fuel + 1) (some (.vmap a3 kt vt (some s)))
      (some (.vmap a4 kt vt (some s))) = some none := by
  constructor <;> [cases a1 <;> cases a2; cases a3 <;> cases a4] <;>
    simp [DeepEqualExplained, deepValueEqual, deepDispatch, visitKey, addrOf,
      hardKind, tyOf, Val.isValidb, mkVisit, h]

/-- Witness for C7: same storage tag, different contents, still `Equal`. -/
theorem same_storage_short_circuit_witness :
    (([Val.vint 1] : List Val).length = ([Val.vint 2] : List Val).length) ∧
    DeepEqualExplained memTwoDiff idOrd 1 (some (.vslice none .tint (some (1, [.vint 1]))))
      (some (.vslice none .tint (some (1, [.vint 2])))) = some none ∧
    DeepEqualExplained memTwoDiff idOrd 1 (some (.vmap none .tstring .tint (some 30)))
      (some (.vmap none .tstring .tint (some 30))) = some none := by
  obtain ⟨hs, hm⟩ := same_storage_short_circuit memTwoDiff idOrd 0 none none none none
    .tint .tstring .tint 1 30 [.vint 1] [.vint 2] rfl
  exact ⟨rfl, hs, hm⟩

/-- Claim C8 (counterexample): the claim says two runs on the same inputs
always produce the same message, including for maps with more than one
differing entry.  Go's map iteration order is randomized per run; here the
same two maps, differing at keys `"a"` and `"b"`, report `[a]` under one
iteration order and `[b]` under another, so the message is not a function
of the inputs alone. -/
theorem map_iteration_order_changes_message :
    DeepEqualExplained memTwoDiff idOrd 2 (some (simpleMap 30)) (some (simpleMap 40)) =
      some (some "values[a] are not equal, where in x is 1 but in y is 2") ∧
    DeepEqualExplained memTwoDiff revOrd 2 (some (simpleMap 30)) (some (simpleMap 40)) =
      some (some "values[b] are not equal, where in x is 1 but in y is 2") ∧
    some (some "values[a] are not equal, where in x is 1 but in y is 2") ≠
      (some (some "values[b] are not equal, where in x is 1 but in y is 2") :
        Option (Option String)) := by
  refine ⟨by decide, by decide, by decide⟩

/-- Claim C8 (amended): the comparison is a deterministic function of the
inputs and the map iteration order; for inputs that contain no `Mapping`
anywhere (including through pointer targets) the iteration-order oracle is
never consulted and the result — outcome and message — is identical under
any two orders.  Only a `Mapping` can make two runs differ. -/
theorem map_free_result_order_independent (mem : Mem)
    (ord1 ord2 : List Val → List Val) (fuel : Nat) (v1 v2 : Val)
    (hmem : MemMapFree mem) (h1 : mapFreeV v1 = true) (h2 : mapFreeV v2 = true) :
    DeepEqualExplained mem ord1 fuel (some v1) (some v2) =
      DeepEqualExplained mem ord2 fuel (some v1) (some v2) := by
  simp only [DeepEqualExplained]
  rw [deepValueEqual_ord_indep mem ord1 ord2 hmem fuel v1 v2 [] h1 h2]

/-- Witness for C8's amended theorem on a map-free pair. -/
theorem map_free_result_order_independent_witness :
    MemMapFree mem0 ∧ mapFreeV (.vint 1) = true ∧ mapFreeV (.vint 2) = true ∧
    DeepEqualExplained mem0 idOrd 1 (some (.vint 1)) (some (.vint 2)) =
      DeepEqualExplained mem0 revOrd 1 (some (.vint 1)) (some (.vint 2)) :=
  ⟨fun _ => rfl, rfl, rfl,
    map_free_result_order_independent mem0 idOrd revOrd 1 (.vint 1) (.vint 2)
      (fun _ => rfl) rfl rfl⟩

/-- Claim C9 (counterexample): the claim says the sequence length-mismatch
message reports both lengths.  But line 81 formats no lengths at all: the
pairs (length 1 vs 2) and (length 1 vs 3) produce the identical message,
so the message cannot be reporting the two lengths (the map branch at
line 128 is the one that does). -/
theorem slice_length_message_identical_for_different_lengths :
    DeepEqualExplained mem0 idOrd 1 (some (.vslice none .tint (some (1, [.vint 1]))))
      (some (.vslice none .tint (some (2, [.vint 2, .vint 3])))) =
      some (some "values do not have the same length") ∧
    DeepEqualExplained mem0 idOrd 1 (some (.vslice none .tint (some (1, [.vint 1]))))
      (some (.vslice none .tint (some (2, [.vint 2, .vint 3, .vint 4])))) =
      some (some "values do not have the same length") := by
  refine ⟨by decide, by decide⟩

/-- Claim C9 (amended): two non-nil slices of differing lengths always
produce the fixed divergence message " do not have the same length",
which does not contain either length. -/
theorem slice_length_mismatch_constant_message (mem : Mem)
    (ord : List Val → List Val) (fuel : Nat) (a1 a2 : Option Nat) (t : Ty)
    (p1 p2 : Nat) (es1 es2 : List Val) (h : es1.length ≠ es2.length) :
    DeepEqualExplained mem ord (fuel + 1) (some (.vslice a1 t (some (p1, es1))))
      (some (.vslice a2 t (some (p2, es2)))) =
      some (some "values do not have the same length") := by
  cases a1 <;> cases a2 <;>
    simp [DeepEqualExplained, deepValueEqual, deepDispatch, visitKey, addrOf,
      hardKind, tyOf, Val.isValidb, mkVisit, h]

/-- Witness for C9's amended theorem. -/
theorem slice_length_mismatch_constant_message_witness :
    (([Val.vint 1] : List Val).length ≠ ([] : List Val).length) ∧
    DeepEqualExplained mem0 idOrd 1 (some (.vslice none .tint (some (1, [.vint 1]))))
      (some (.vslice none .tint (some (2, [])))) =
      some (some "values do not have the same length") :=
  ⟨by decide, slice_length_mismatch_constant_message mem0 idOrd 0 none none .tint
    1 2 [.vint 1] [] (by decide)⟩

/-- Claim C10: a leaf pair whose dynamic types differ — even when its two
`%v` renderings coincide — is reported as a type-mismatch divergence
carrying both type names, never as `Equal` or a value-mismatch.  In the
code the report comes from the per-call type guard of lines 32-34, which
runs before the fallback's own tag comparison of lines 157-158; that
fallback comparison itself is unreachable (`%T` of a `reflect.Value`
argument is the constant "reflect.Value", see `sprintfT`, and the guard
has already equalized the types). -/
theorem leaf_type_mismatch_reported (mem : Mem) (ord : List Val → List Val)
    (fuel : Nat) (v1 v2 : Val) (vis : List Visit)
    (h1 : leafKind v1 = true) (h2 : leafKind v2 = true)
    (hty : tyOf v1 ≠ tyOf v2) (hr : render v1 = render v2) :
    deepValueEqual mem ord (fuel + 1) v1 v2 vis =
      some (vis, some (" has different types, where in x is " ++ tyName (tyOf v1) ++
        " but in y is " ++ tyName (tyOf v2))) := by
  have hv1 : v1.isValidb = true := by cases v1 <;> simp_all [leafKind, Val.isValidb]
  have hv2 : v2.isValidb = true := by cases v2 <;> simp_all [leafKind, Val.isValidb]
  simp [deepValueEqual, hv1, hv2, hty]

/-- Witness for C10: `int 1` vs `int64 1` render identically ("1" and
"1") yet are reported as a type mismatch naming both types. -/
theorem leaf_type_mismatch_reported_witness :
    (leafKind (.vint 1) = true) ∧ (leafKind (.vint64 1) = true) ∧
    (tyOf (.vint 1) ≠ tyOf (.vint64 1)) ∧ (render (.vint 1) = render (.vint64 1)) ∧
    deepValueEqual mem0 idOrd 1 (.vint 1) (.vint64 1) [] =
      some ([], some (" has different types, where in x is " ++ tyName (tyOf (.vint 1)) ++
        " but in y is " ++ tyName (tyOf (.vint64 1)))) :=
  ⟨rfl, rfl, by decide, rfl,
    leaf_type_mismatch_reported mem0 idOrd 0 (.vint 1) (.vint64 1) []
      rfl rfl (by decide) rfl⟩
